import Mathlib

/-! The gibo package `utils`: the local mirror and the boilerplate lookup.

A shallow embedding of `utils/utils.go`.  Go strings are modelled as Lean
strings (sequences of runes, i.e. valid UTF-8).  Calls into the operating
system, the Go standard library and go-git are modelled by their documented
behaviour; what they return is read from a `World`, every call is appended to
a call log, and what is printed is appended to `stdout`.
-/

namespace Gibo

/-! ## Errors -/

/-- Go `error` values the package creates, compares against, or receives. -/
inductive GoError where
  /-- The sentinel `filepath.SkipAll`. -/
  | SkipAll
  /-- The sentinel `git.ErrRepositoryAlreadyExists`. -/
  | ErrRepositoryAlreadyExists
  /-- The sentinel `git.NoErrAlreadyUpToDate`. -/
  | NoErrAlreadyUpToDate
  /-- An error built by `fmt.Errorf`, with its formatted message. -/
  | Errorf (msg : String)
  /-- An error of the `os` package; the flags are what `os.IsNotExist` and
  `os.IsExist` answer for it. -/
  | Os (msg : String) (notExist exist : Bool)
  /-- Any other error of go-git or of the `io` package. -/
  | Other (msg : String)
  deriving DecidableEq, Repr

/-- The method `Error()` of an error value. -/
def GoError.Error : GoError → String
  | .SkipAll => "skip everything and stop the walk"
  | .ErrRepositoryAlreadyExists => "repository already exists"
  | .NoErrAlreadyUpToDate => "already up-to-date"
  | .Errorf msg => msg
  | .Os msg _ _ => msg
  | .Other msg => msg

/-- Go `os.IsNotExist(err)`; false for a nil error. -/
def IsNotExist : Option GoError → Bool
  | some (.Os _ notExist _) => notExist
  | _ => false

/-- Go `os.IsExist(err)`; false for a nil error. -/
def IsExist : Option GoError → Bool
  | some (.Os _ _ exist) => exist
  | _ => false

/-! ## The platform -/

/-- The two path conventions Go builds for. -/
inductive GOOS where
  | unix
  | windows
  deriving DecidableEq, Repr

/-- What the code reads from the platform and from library tables that are
not part of the package: the host convention, the length of
`filepath.VolumeName` (always `0` on Unix), the rune mapping
`unicode.ToLower`, and the value `RepoDir()` returns (its `log.Fatalln`
branch ends the process before any operation below runs). -/
structure Runtime where
  goos : GOOS
  volumeNameLen : String → Nat
  unicodeToLower : Char → Char
  RepoDir : String

/-- Go `os.PathSeparator`. -/
def PathSeparator (rt : Runtime) : Char :=
  match rt.goos with
  | .unix => '/'
  | .windows => '\\'

/-- Go `os.IsPathSeparator`: the separator itself, and `/` as well where the
separator is the backslash. -/
def IsPathSeparator (rt : Runtime) (c : Char) : Bool :=
  c == PathSeparator rt || (PathSeparator rt == '\\' && c == '/')

/-! ## `strings` and `path/filepath` -/

/-- Go `strings.ToLower`: `unicode.ToLower` applied to every rune. -/
def ToLower (rt : Runtime) (s : String) : String :=
  ⟨s.data.map rt.unicodeToLower⟩

/-- Go `strings.HasPrefix`. -/
def HasPrefix (s pre : String) : Bool :=
  pre.data.isPrefixOf s.data

/-- Go `strings.HasSuffix`. -/
def HasSuffix (s suf : String) : Bool :=
  suf.data.isSuffixOf s.data

/-- Go `strings.TrimPrefix`: `s` without the leading `pre`, or `s` itself
when it does not start with `pre`. -/
def TrimPrefix (s pre : String) : String :=
  if HasPrefix s pre then ⟨s.data.drop pre.data.length⟩ else s

/-- Go `strings.TrimSuffix`: `s` without the trailing `suf`, or `s` itself
when it does not end with `suf`. -/
def TrimSuffix (s suf : String) : String :=
  if HasSuffix s suf then ⟨s.data.take (s.data.length - suf.data.length)⟩ else s

/-- Go `strings.ReplaceAll(s, old, new)` for one-rune `old` and `new`, which
is how the package calls it (`"\\"` and `"/"`). -/
def ReplaceAll (s : String) (old new : Char) : String :=
  ⟨s.data.map (fun c => if c = old then new else c)⟩

/-- The backward scan of `filepath.Ext`: `rev` holds the runes not yet seen,
last one first, and `acc` the runes already passed. -/
def extScan (rt : Runtime) : List Char → List Char → List Char
  | [], _ => []
  | c :: rev, acc =>
    if IsPathSeparator rt c then []
    else if c = '.' then c :: acc
    else extScan rt rev (c :: acc)

/-- Go `filepath.Ext`: the suffix beginning at the final dot of the final
element of `path`, empty if there is no dot. -/
def Ext (rt : Runtime) (path : String) : String :=
  ⟨extScan rt path.data.reverse []⟩

/-- Go `filepath.Base`: the last element of `path`, after removing trailing
separators and the volume name; `"."` for the empty path and the separator
for a path of separators only. -/
def Base (rt : Runtime) (path : String) : String :=
  if path = "" then "."
  else
    let p1 : List Char := (path.data.reverse.dropWhile (IsPathSeparator rt)).reverse
    let p2 : List Char := p1.drop (rt.volumeNameLen ⟨p1⟩)
    let p3 : List Char := (p2.reverse.takeWhile (fun c => !IsPathSeparator rt c)).reverse
    if p3 = [] then String.singleton (PathSeparator rt) else ⟨p3⟩

/-! ## The world outside the process -/

/-- Go `fs.FileInfo`, as far as the package reads it. -/
structure FileInfo where
  IsDir : Bool
  deriving DecidableEq, Repr

/-- An opened file: its bytes, and where `io.Copy` from it stops early, if it
does (after how many runes, and with which error). -/
structure FileData where
  content : String
  copyFail : Option (Nat × GoError)
  deriving DecidableEq, Repr

/-- What `io.Copy` transfers from an opened file before it returns: all of
it, or the part before the failure. -/
def FileData.copied (f : FileData) : String :=
  match f.copyFail with
  | none => f.content
  | some (n, _) => ⟨f.content.data.take n⟩

/-- What the calls out of the process answer.  `stat` is the state of the
mirror path and is the one field the package can change (`os.MkdirAll`). -/
structure World where
  /-- Outcome of `os.Stat(RepoDir())`: an error, or the file info. -/
  stat : Except GoError FileInfo
  /-- Outcome of `os.MkdirAll(RepoDir(), 0755)`. -/
  mkdirAll : Option GoError
  /-- Outcome of `git.PlainClone` into the mirror path. -/
  plainClone : Option GoError
  /-- The paths `filepath.WalkDir(RepoDir(), fn)` hands to `fn`, in order. -/
  walk : List String
  /-- Outcome of `git.PlainOpen(RepoDir())`. -/
  plainOpen : Option GoError
  /-- Outcome of `r.Head()`: an error, or the head revision hash as text. -/
  head : Except GoError String
  /-- Outcome of `r.Worktree()`. -/
  worktree : Option GoError
  /-- Outcome of `w.Pull`. -/
  pull : Option GoError
  /-- Outcome of `os.Open(path)`. -/
  files : String → Except GoError FileData

/-- A call out of the process. -/
inductive Call where
  | Stat (name : String)
  | MkdirAll (path : String)
  | PlainClone (path : String)
  | WalkDir (root : String) (visited : List String)
  | PlainOpen (path : String)
  | Head
  | Worktree
  | Pull
  | Open (path : String)
  | Copy (path : String)
  deriving DecidableEq, Repr

/-- The state threaded through the operations. -/
structure St where
  world : World
  calls : List Call
  stdout : String

/-- Append a call to the log. -/
def St.log (st : St) (c : Call) : St :=
  { st with calls := st.calls ++ [c] }

/-- Append text to the standard output. -/
def St.print (st : St) (s : String) : St :=
  { st with stdout := st.stdout ++ s }

/-- How a Go function call ends: it returns, or the goroutine panics on a
nil dereference. -/
inductive Run (α : Type) where
  | ret (a : α)
  | nilDeref
  deriving DecidableEq, Repr

/-- Go `os.Stat(name)` on the mirror path: the file info is nil exactly when
the error is not. -/
def osStat (name : String) (st : St) : (Option FileInfo × Option GoError) × St :=
  match st.world.stat with
  | .ok fi => ((some fi, none), st.log (.Stat name))
  | .error e => ((none, some e), st.log (.Stat name))

/-- Go `os.MkdirAll(path, 0755)` on the mirror path: on success the path is a
directory. -/
def osMkdirAll (path : String) (st : St) : Option GoError × St :=
  match st.world.mkdirAll with
  | none =>
    (none, { st.log (.MkdirAll path) with world := { st.world with stat := .ok ⟨true⟩ } })
  | some e => (some e, st.log (.MkdirAll path))

/-- Go `git.PlainClone(path, false, opts)` of the fixed origin, the
repository value dropped. -/
def gitPlainClone (path : String) (st : St) : Option GoError × St :=
  (st.world.plainClone, st.log (.PlainClone path))

/-- Go `filepath.WalkDir` over the sequence of paths it visits, for a
callback that returns nil, `filepath.SkipAll` or another error (never
`SkipDir`).  The callback is a closure over a variable of type `σ`.  Returns
the final value of that variable, the paths the callback was called on, and
the error of `WalkDir`. -/
def WalkDir {σ : Type} (fn : String → σ → σ × Option GoError) :
    List String → σ → σ × List String × Option GoError
  | [], s => (s, [], none)
  | path :: rest, s =>
    match fn path s with
    | (s1, none) =>
      let r := WalkDir fn rest s1
      (r.1, path :: r.2.1, r.2.2)
    | (s1, some .SkipAll) => (s1, [path], none)
    | (s1, some e) => (s1, [path], some e)

/-! ## The package -/

/-- Source `cloneRepo` (lines 24-37). -/
def cloneRepo (repo : String) (st : St) : Option GoError × St :=
  let (err, st) := osMkdirAll repo st
  if err ≠ none ∧ !IsExist err then (err, st)
  else
    let (err, st) := gitPlainClone repo st
    if err ≠ none ∧ err ≠ some .ErrRepositoryAlreadyExists then (err, st)
    else (none, st)

/-- Source `cloneIfNeeded` (lines 39-50).  `fileInfo.IsDir()` on a nil
`fileInfo` is a nil dereference. -/
def cloneIfNeeded (rt : Runtime) (st : St) : Run (Option GoError) × St :=
  let ((fileInfo, err), st) := osStat rt.RepoDir st
  if IsNotExist err then
    let (err, st) := cloneRepo rt.RepoDir st
    if err ≠ none then (.ret err, st) else (.ret none, st)
  else
    match fileInfo with
    | none => (.nilDeref, st)
    | some fi =>
      if !fi.IsDir then
        (.ret (some (.Errorf (rt.RepoDir ++ " exists but is not a directory"))), st)
      else (.ret none, st)

/-- The callback `pathForBoilerplate` hands to `WalkDir` (lines 58-65); the
captured variable is `result`. -/
def pathForBoilerplateFn (rt : Runtime) (filename : String) (path : String) (result : String) :
    String × Option GoError :=
  if ToLower rt (Base rt path) = ToLower rt filename then (path, some .SkipAll)
  else (result, none)

/-- Source `pathForBoilerplate` (lines 55-70). -/
def pathForBoilerplate (rt : Runtime) (name : String) (st : St) :
    (String × Option GoError) × St :=
  let filename := name ++ ".gitignore"
  let w := WalkDir (pathForBoilerplateFn rt filename) st.world.walk ""
  let result := w.1
  let st := st.log (.WalkDir rt.RepoDir w.2.1)
  if result.length > 0 then ((result, none), st)
  else (("", some (.Errorf (name ++ ": boilerplate not found"))), st)

/-- Go `git.PlainOpen(path)` on the mirror path, the repository value kept
implicit. -/
def gitPlainOpen (path : String) (st : St) : Option GoError × St :=
  (st.world.plainOpen, st.log (.PlainOpen path))

/-- Go `r.Head()` followed by `revision.Hash().String()`: the hash as text
("" beside an error). -/
def gitHead (st : St) : (String × Option GoError) × St :=
  match st.world.head with
  | .ok hash => ((hash, none), st.log .Head)
  | .error e => (("", some e), st.log .Head)

/-- Go `r.Worktree()`. -/
def gitWorktree (st : St) : Option GoError × St :=
  (st.world.worktree, st.log .Worktree)

/-- Go `w.Pull(opts)`. -/
def gitPull (st : St) : Option GoError × St :=
  (st.world.pull, st.log .Pull)

/-- Go `os.Open(path)`: an error, or the opened file. -/
def osOpen (path : String) (st : St) : Except GoError FileData × St :=
  (st.world.files path, st.log (.Open path))

/-- Go `io.Copy(os.Stdout, f)`: writes the file to the standard output up to
the end of the file or to the first error, which it returns. -/
def ioCopy (path : String) (f : FileData) (st : St) : Option GoError × St :=
  (f.copyFail.map Prod.snd, (st.print f.copied).log (.Copy path))

/-- Go `fmt.Println(s)` for one string. -/
def Println (s : String) (st : St) : St :=
  st.print (s ++ "\n")

/-- The relative path `PrintBoilerplate` computes (lines 91-96). -/
def relativePath (rt : Runtime) (path : String) : String :=
  let relativePath := TrimPrefix path rt.RepoDir
  if PathSeparator rt = '\\' then ReplaceAll relativePath '\\' '/' else relativePath

/-- Source `PrintBoilerplate` (lines 72-109).  The test of `err` on line 100
reads the error of `r.Head()`, nil at that point; the result of `io.Copy` is
dropped. -/
def PrintBoilerplate (rt : Runtime) (name : String) (st : St) : Run (Option GoError) × St :=
  match cloneIfNeeded rt st with
  | (.nilDeref, st) => (.nilDeref, st)
  | (.ret (some err), st) => (.ret (some err), st)
  | (.ret none, st) =>
    let ((path, err), st) := pathForBoilerplate rt name st
    if err ≠ none then (.ret err, st)
    else
      let (err, st) := gitPlainOpen rt.RepoDir st
      if err ≠ none then (.ret err, st)
      else
        let ((hash, err), st) := gitHead st
        if err ≠ none then (.ret err, st)
        else
          let remoteWebRoot := "https://raw.github.com/github/gitignore/" ++ hash
          let relativePath := relativePath rt path
          let st := Println "### Generated by gibo (https://github.com/simonwhitaker/gibo)" st
          let st := st.print ("### " ++ remoteWebRoot ++ relativePath ++ "\n\n")
          if err ≠ none then (.ret err, st)
          else
            match osOpen path st with
            | (.error err, st) => (.ret (some err), st)
            | (.ok f, st) =>
              let (_, st) := ioCopy path f st
              (.ret none, st)

/-! ### Listing -/

/-- UTF-8 encoding of a rune, as a list of byte values. -/
def utf8Rune (c : Char) : List Nat :=
  let n := c.toNat
  if n < 0x80 then [n]
  else if n < 0x800 then [0xC0 + n / 0x40, 0x80 + n % 0x40]
  else if n < 0x10000 then [0xE0 + n / 0x1000, 0x80 + n / 0x40 % 0x40, 0x80 + n % 0x40]
  else [0xF0 + n / 0x40000, 0x80 + n / 0x1000 % 0x40, 0x80 + n / 0x40 % 0x40, 0x80 + n % 0x40]

/-- The bytes of a Go string. -/
def utf8Bytes (s : String) : List Nat :=
  (s.data.map utf8Rune).flatten

/-- Lexicographic `≤` on byte sequences. -/
def bytesLE : List Nat → List Nat → Bool
  | [], _ => true
  | _ :: _, [] => false
  | a :: as, b :: bs => a < b || (a == b && bytesLE as bs)

/-- Go `a <= b` on strings: byte-wise lexicographic. -/
def stringLE (a b : String) : Prop :=
  bytesLE (utf8Bytes a) (utf8Bytes b) = true

instance : DecidableRel stringLE :=
  fun a b => inferInstanceAs (Decidable (bytesLE (utf8Bytes a) (utf8Bytes b) = true))

/-- Go `sort.Strings`: the strings in increasing byte-wise order.  The order
is total, so the outcome does not depend on the sorting algorithm. -/
def sortStrings (x : List String) : List String :=
  x.insertionSort stringLE

/-- The callback `ListBoilerplates` hands to `WalkDir` (lines 116-124); the
captured variable is `result`. -/
def ListBoilerplatesFn (rt : Runtime) (path : String) (result : List String) :
    List String × Option GoError :=
  let base := Base rt path
  let ext := Ext rt base
  if ext = ".gitignore" then
    let name := TrimSuffix base ext
    (result ++ [name], none)
  else (result, none)

/-- Source `ListBoilerplates` (lines 111-130); a nil slice is the empty
list. -/
def ListBoilerplates (rt : Runtime) (st : St) : Run (List String × Option GoError) × St :=
  match cloneIfNeeded rt st with
  | (.nilDeref, st) => (.nilDeref, st)
  | (.ret (some err), st) => (.ret ([], some err), st)
  | (.ret none, st) =>
    let w := WalkDir (ListBoilerplatesFn rt) st.world.walk []
    let st := st.log (.WalkDir rt.RepoDir w.2.1)
    match w.2.2 with
    | some err => (.ret ([], some err), st)
    | none => (.ret (sortStrings w.1, none), st)

/-- Short name, used in the lemmas on the walk, for the list that holds, for
every walked entry whose base name ends in `.gitignore`, that base name
without the suffix, in walk order. -/
def collectedNames (rt : Runtime) (walk : List String) : List String :=
  ((walk.map (Base rt)).filter (fun b => HasSuffix b ".gitignore")).map
    (fun b => TrimSuffix b ".gitignore")

/-- Source `ListBoilerplatesNoError` (lines 132-135). -/
def ListBoilerplatesNoError (rt : Runtime) (st : St) : Run (List String) × St :=
  match ListBoilerplates rt st with
  | (.nilDeref, st) => (.nilDeref, st)
  | (.ret (result, _), st) => (.ret result, st)

/-! ### Refresh -/

/-- Source `Update` (lines 137-154): the error of `cloneIfNeeded()` is
dropped. -/
def Update (rt : Runtime) (st : St) : Run (String × Option GoError) × St :=
  match cloneIfNeeded rt st with
  | (.nilDeref, st) => (.nilDeref, st)
  | (.ret _, st) =>
    let (err, st) := gitPlainOpen rt.RepoDir st
    if err ≠ none then (.ret ("", err), st)
    else
      let (err, st) := gitWorktree st
      if err ≠ none then (.ret ("", err), st)
      else
        let (err, st) := gitPull st
        if err ≠ none ∧ err ≠ some .NoErrAlreadyUpToDate then (.ret ("", err), st)
        else if err ≠ none then (.ret ("Already up to date", none), st)
        else (.ret ("Updated", none), st)

/-! ## Sample runs -/

/-- ASCII part of `unicode.ToLower`, enough for the sample runs. -/
def asciiToLower (c : Char) : Char :=
  if 65 ≤ c.toNat ∧ c.toNat ≤ 90 then Char.ofNat (c.toNat + 32) else c

/-- A Unix host. -/
def unixRt : Runtime :=
  { goos := .unix, volumeNameLen := fun _ => 0, unicodeToLower := asciiToLower,
    RepoDir := "/c/gibo" }

/-- A Windows host (drive-letter volume names). -/
def windowsRt : Runtime :=
  { goos := .windows,
    volumeNameLen := fun p => match p.data with
      | _ :: ':' :: _ => 2
      | _ => 0,
    unicodeToLower := asciiToLower,
    RepoDir := "C:\\c\\gibo" }

/-- A populated mirror on the Unix host. -/
def sampleWorld : World :=
  { stat := .ok ⟨true⟩, mkdirAll := none, plainClone := none,
    walk := ["/c/gibo", "/c/gibo/.git", "/c/gibo/C++.gitignore", "/c/gibo/Global",
             "/c/gibo/Global/go.gitignore", "/c/gibo/Go.gitignore", "/c/gibo/Python.gitignore",
             "/c/gibo/README.md"],
    plainOpen := none, head := .ok "abc123", worktree := none, pull := none,
    files := fun p => if p = "/c/gibo/Python.gitignore" then .ok ⟨"*.pyc\n__pycache__/\n", none⟩
      else .error (.Os "open: permission denied" false false) }

/-- First run without a network: the mirror path is absent, the directory
can be made, the clone fails, and the directory holds no repository. -/
def offlineWorld : World :=
  { sampleWorld with
    stat := .error (.Os "stat /c/gibo: no such file or directory" true false),
    plainClone := some (.Other "dial tcp: lookup github.com: no such host"),
    walk := ["/c/gibo"],
    plainOpen := some (.Other "repository does not exist") }

/-- The mirror path cannot be examined: `os.Stat` fails with an error other
than "does not exist". -/
def deniedWorld : World :=
  { sampleWorld with stat := .error (.Os "stat /c/gibo: permission denied" false false) }

/-- The sample mirror on a disk that fails while `Python.gitignore` is read,
after the first six bytes. -/
def brokenReadWorld : World :=
  { sampleWorld with
    files := fun _ => .ok ⟨"*.pyc\n__pycache__/\n",
      some (6, .Other "read /c/gibo/Python.gitignore: input/output error")⟩ }

/-- A populated mirror on the Windows host. -/
def windowsWorld : World :=
  { sampleWorld with
    walk := ["C:\\c\\gibo", "C:\\c\\gibo\\Go.gitignore"],
    files := fun _ => .ok ⟨"*.exe\n", none⟩ }

/-- A mirror on the Unix host with a backslash in a file name. -/
def backslashWorld : World :=
  { sampleWorld with
    walk := ["/c/gibo", "/c/gibo/a\\b.gitignore"],
    files := fun _ => .ok ⟨"*.tmp\n", none⟩ }

/-- The state before an operation starts. -/
def St.init (w : World) : St :=
  { world := w, calls := [], stdout := "" }


/-! ## Lemmas on the string helpers -/

theorem ToLower_append (rt : Runtime) (a b : String) :
    ToLower rt (a ++ b) = ToLower rt a ++ ToLower rt b := by
  apply String.ext
  simp [ToLower, String.data_append]

theorem ToLower_length (rt : Runtime) (s : String) : (ToLower rt s).length = s.length := by
  show (s.data.map rt.unicodeToLower).length = s.data.length
  exact List.length_map _ _

/-- The file name searched for depends on the name only through its
lower-cased form. -/
theorem ToLower_filename_congr (rt : Runtime) (n1 n2 : String)
    (h : ToLower rt n1 = ToLower rt n2) :
    ToLower rt (n1 ++ ".gitignore") = ToLower rt (n2 ++ ".gitignore") := by
  rw [ToLower_append, ToLower_append, h]

/-- A path whose base name matches a searched file name is not empty: the
base of the empty path is `"."`, one rune long, and the file name has at least
ten. -/
theorem ne_empty_of_match (rt : Runtime) (name path : String)
    (h : ToLower rt (Base rt path) = ToLower rt (name ++ ".gitignore")) : path.length > 0 := by
  by_contra hlen
  have hp : path = "" := by
    apply String.ext
    have h0 : path.data.length = 0 := Nat.eq_zero_of_not_pos hlen
    exact List.length_eq_zero.mp h0
  subst hp
  have h1 := congrArg String.length h
  rw [ToLower_length, ToLower_length, String.length_append] at h1
  have hb : Base rt "" = "." := if_pos rfl
  have h10 : ".gitignore".length = 10 := by decide
  have h11 : ".".length = 1 := by decide
  rw [hb, h10, h11] at h1
  omega

/-! ## Lemmas on the walk -/

/-- A walk in which no entry matches visits every entry and leaves `result`
as it was. -/
theorem WalkDir_pathFn_none (rt : Runtime) (filename : String) (l : List String) (r : String)
    (h : ∀ p ∈ l, ToLower rt (Base rt p) ≠ ToLower rt filename) :
    WalkDir (pathForBoilerplateFn rt filename) l r = (r, l, none) := by
  induction l with
  | nil => rfl
  | cons p ps ih =>
    have hp : ToLower rt (Base rt p) ≠ ToLower rt filename := h p (List.mem_cons_self _ _)
    have ih1 := ih (fun q hq => h q (List.mem_cons_of_mem _ hq))
    have hfn : pathForBoilerplateFn rt filename p r = (r, none) := if_neg hp
    rw [WalkDir, hfn]
    simp only [ih1]

/-- A walk stops at the first matching entry, with `result` set to it. -/
theorem WalkDir_pathFn_first (rt : Runtime) (filename : String) (pre post : List String)
    (m r : String)
    (hpre : ∀ p ∈ pre, ToLower rt (Base rt p) ≠ ToLower rt filename)
    (hm : ToLower rt (Base rt m) = ToLower rt filename) :
    WalkDir (pathForBoilerplateFn rt filename) (pre ++ m :: post) r = (m, pre ++ [m], none) := by
  induction pre with
  | nil =>
    have hfn : pathForBoilerplateFn rt filename m r = (m, some .SkipAll) := if_pos hm
    rw [List.nil_append, WalkDir, hfn]
    rfl
  | cons p ps ih =>
    have hp : ToLower rt (Base rt p) ≠ ToLower rt filename := hpre p (List.mem_cons_self _ _)
    have ih1 := ih (fun q hq => hpre q (List.mem_cons_of_mem _ hq))
    have hfn : pathForBoilerplateFn rt filename p r = (r, none) := if_neg hp
    rw [List.cons_append, WalkDir, hfn]
    simp only [ih1, List.cons_append]

/-- A list with an element satisfying `P` splits at the first such element. -/
theorem split_at_first {α : Type} (P : α → Prop) [DecidablePred P] (l : List α)
    (h : ∃ a ∈ l, P a) :
    ∃ pre m post, l = pre ++ m :: post ∧ (∀ q ∈ pre, ¬ P q) ∧ P m := by
  induction l with
  | nil => simp at h
  | cons a as ih =>
    by_cases ha : P a
    · exact ⟨[], a, as, rfl, by simp, ha⟩
    · have h1 : ∃ b ∈ as, P b := by
        obtain ⟨b, hb, hPb⟩ := h
        rcases List.mem_cons.mp hb with rfl | hb1
        · exact absurd hPb ha
        · exact ⟨b, hb1, hPb⟩
      obtain ⟨pre, m, post, hl, hpre, hm⟩ := ih h1
      refine ⟨a :: pre, m, post, by simp [hl], ?_, hm⟩
      intro q hq
      rcases List.mem_cons.mp hq with rfl | hq1
      · exact ha
      · exact hpre q hq1

/-! ## Resolution of a name -/

/-- The outcome of `pathForBoilerplate` when the walk splits at a first
matching entry `m`. -/
theorem pathForBoilerplate_found (rt : Runtime) (name : String) (st : St)
    (pre post : List String) (m : String)
    (hw : st.world.walk = pre ++ m :: post)
    (hpre : ∀ p ∈ pre, ToLower rt (Base rt p) ≠ ToLower rt (name ++ ".gitignore"))
    (hm : ToLower rt (Base rt m) = ToLower rt (name ++ ".gitignore"))
    (hlen : m.length > 0) :
    pathForBoilerplate rt name st = ((m, none), st.log (.WalkDir rt.RepoDir (pre ++ [m]))) := by
  unfold pathForBoilerplate
  simp only [hw, WalkDir_pathFn_first rt _ pre post m "" hpre hm]
  rw [if_pos hlen]

/-- The outcome of `pathForBoilerplate` when no walked entry matches. -/
theorem pathForBoilerplate_not_found (rt : Runtime) (name : String) (st : St)
    (h : ∀ p ∈ st.world.walk, ToLower rt (Base rt p) ≠ ToLower rt (name ++ ".gitignore")) :
    pathForBoilerplate rt name st =
      (("", some (.Errorf (name ++ ": boilerplate not found"))),
        st.log (.WalkDir rt.RepoDir st.world.walk)) := by
  unfold pathForBoilerplate
  simp only [WalkDir_pathFn_none rt _ st.world.walk "" h]
  have h0 : ¬ ("".length > 0) := by decide
  rw [if_neg h0]

/-- C1: `pathForBoilerplate` is case-insensitive in its argument: for every
sequence of walked paths and every two names whose lower-cased forms are
equal, if the call with the first name succeeds with path `p`, the call with
the second name succeeds with the same path `p`. -/
theorem pathForBoilerplate_case_insensitive (rt : Runtime) (st : St) (n1 n2 p : String)
    (hlow : ToLower rt n1 = ToLower rt n2)
    (h1 : (pathForBoilerplate rt n1 st).1 = (p, none)) :
    (pathForBoilerplate rt n2 st).1 = (p, none) := by
  have hfile := ToLower_filename_congr rt n1 n2 hlow
  by_cases hex : ∃ q ∈ st.world.walk, ToLower rt (Base rt q) = ToLower rt (n1 ++ ".gitignore")
  · obtain ⟨pre, m, post, hw, hpre, hm⟩ := split_at_first _ st.world.walk hex
    have hlen : m.length > 0 := ne_empty_of_match rt n1 m hm
    rw [pathForBoilerplate_found rt n1 st pre post m hw hpre hm hlen] at h1
    rw [pathForBoilerplate_found rt n2 st pre post m hw (by rw [← hfile]; exact hpre)
      (by rw [← hfile]; exact hm) hlen]
    exact h1
  · have hnone : ∀ q ∈ st.world.walk,
        ToLower rt (Base rt q) ≠ ToLower rt (n1 ++ ".gitignore") :=
      fun q hq hq1 => hex ⟨q, hq, hq1⟩
    rw [pathForBoilerplate_not_found rt n1 st hnone] at h1
    simp at h1

/-- Witness for C1 on the sample mirror: `python` and `PYTHON` resolve to the
same file. -/
theorem pathForBoilerplate_case_insensitive_witness :
    ToLower unixRt "python" = ToLower unixRt "PYTHON" ∧
    (pathForBoilerplate unixRt "python" (St.init sampleWorld)).1
      = ("/c/gibo/Python.gitignore", none) ∧
    (pathForBoilerplate unixRt "PYTHON" (St.init sampleWorld)).1
      = ("/c/gibo/Python.gitignore", none) :=
  ⟨by decide, by decide,
    pathForBoilerplate_case_insensitive unixRt (St.init sampleWorld) "python" "PYTHON"
      "/c/gibo/Python.gitignore" (by decide) (by decide)⟩

/-- C2: `pathForBoilerplate` fails exactly when no walked entry matches: for
every walk of non-empty paths and every name, it returns an error if and only
if no walked entry has a base name whose lower-cased form equals the
lower-cased `name ++ ".gitignore"`; the error then comes with the empty path
and its message is `name ++ ": boilerplate not found"`, the name as given. -/
theorem pathForBoilerplate_error_iff (rt : Runtime) (st : St) (name : String)
    (hne : ∀ p ∈ st.world.walk, p ≠ "") :
    ((pathForBoilerplate rt name st).1.2 ≠ none ↔
      ¬ ∃ p ∈ st.world.walk, ToLower rt (Base rt p) = ToLower rt (name ++ ".gitignore")) ∧
    ∀ e, (pathForBoilerplate rt name st).1.2 = some e →
      (pathForBoilerplate rt name st).1.1 = "" ∧
      e.Error = name ++ ": boilerplate not found" := by
  by_cases hex : ∃ q ∈ st.world.walk, ToLower rt (Base rt q) = ToLower rt (name ++ ".gitignore")
  · obtain ⟨pre, m, post, hw, hpre, hm⟩ := split_at_first _ st.world.walk hex
    have hmem : m ∈ st.world.walk := by rw [hw]; simp
    have hlen : m.length > 0 := by
      have hd : m.data ≠ [] := fun h0 => hne m hmem (String.ext h0)
      exact List.length_pos.mpr hd
    rw [pathForBoilerplate_found rt name st pre post m hw hpre hm hlen]
    simp [hex]
  · have hnone : ∀ q ∈ st.world.walk,
        ToLower rt (Base rt q) ≠ ToLower rt (name ++ ".gitignore") :=
      fun q hq hq1 => hex ⟨q, hq, hq1⟩
    rw [pathForBoilerplate_not_found rt name st hnone]
    refine ⟨?_, ?_⟩
    · simp [hex]
    · intro e he
      have he1 : GoError.Errorf (name ++ ": boilerplate not found") = e := by
        simpa using he
      subst he1
      exact ⟨rfl, rfl⟩

/-- Witness for C2 on the sample mirror, which holds no `Rust.gitignore`. -/
theorem pathForBoilerplate_error_iff_witness :
    (∀ p ∈ (St.init sampleWorld).world.walk, p ≠ "") ∧
    (pathForBoilerplate unixRt "Rust" (St.init sampleWorld)).1
      = ("", some (.Errorf "Rust: boilerplate not found")) ∧
    (((pathForBoilerplate unixRt "Rust" (St.init sampleWorld)).1.2 ≠ none ↔
      ¬ ∃ p ∈ (St.init sampleWorld).world.walk,
        ToLower unixRt (Base unixRt p) = ToLower unixRt ("Rust" ++ ".gitignore")) ∧
    ∀ e, (pathForBoilerplate unixRt "Rust" (St.init sampleWorld)).1.2 = some e →
      (pathForBoilerplate unixRt "Rust" (St.init sampleWorld)).1.1 = "" ∧
      e.Error = "Rust" ++ ": boilerplate not found") :=
  ⟨by decide, by decide,
    pathForBoilerplate_error_iff unixRt (St.init sampleWorld) "Rust" (by decide)⟩

/-- C3: `pathForBoilerplate` returns the first match in walk order and stops
there: when some walked entry matches, the walk splits as `pre ++ m :: post`
with no match in `pre` and `m` matching, the call succeeds with `m`, and the
callback was run on `pre ++ [m]` only, on no entry of `post`. -/
theorem pathForBoilerplate_first_match (rt : Runtime) (st : St) (name : String)
    (h : ∃ p ∈ st.world.walk, ToLower rt (Base rt p) = ToLower rt (name ++ ".gitignore")) :
    ∃ pre m post, st.world.walk = pre ++ m :: post ∧
      (∀ q ∈ pre, ToLower rt (Base rt q) ≠ ToLower rt (name ++ ".gitignore")) ∧
      ToLower rt (Base rt m) = ToLower rt (name ++ ".gitignore") ∧
      (pathForBoilerplate rt name st).1 = (m, none) ∧
      (pathForBoilerplate rt name st).2.calls = st.calls ++ [.WalkDir rt.RepoDir (pre ++ [m])] := by
  obtain ⟨pre, m, post, hw, hpre, hm⟩ := split_at_first _ st.world.walk h
  have hlen : m.length > 0 := ne_empty_of_match rt name m hm
  refine ⟨pre, m, post, hw, hpre, hm, ?_, ?_⟩
  · rw [pathForBoilerplate_found rt name st pre post m hw hpre hm hlen]
  · rw [pathForBoilerplate_found rt name st pre post m hw hpre hm hlen]
    rfl

/-- Witness for C3 on the sample mirror: `go` matches two entries, and the
earlier one, `Global/go.gitignore`, is returned. -/
theorem pathForBoilerplate_first_match_witness :
    (pathForBoilerplate unixRt "go" (St.init sampleWorld)).1
      = ("/c/gibo/Global/go.gitignore", none) ∧
    (pathForBoilerplate unixRt "go" (St.init sampleWorld)).2.calls
      = [.WalkDir "/c/gibo" ["/c/gibo", "/c/gibo/.git", "/c/gibo/C++.gitignore", "/c/gibo/Global",
          "/c/gibo/Global/go.gitignore"]] ∧
    ∃ pre m post, (St.init sampleWorld).world.walk = pre ++ m :: post ∧
      (∀ q ∈ pre, ToLower unixRt (Base unixRt q) ≠ ToLower unixRt ("go" ++ ".gitignore")) ∧
      ToLower unixRt (Base unixRt m) = ToLower unixRt ("go" ++ ".gitignore") ∧
      (pathForBoilerplate unixRt "go" (St.init sampleWorld)).1 = (m, none) ∧
      (pathForBoilerplate unixRt "go" (St.init sampleWorld)).2.calls
        = (St.init sampleWorld).calls ++ [.WalkDir unixRt.RepoDir (pre ++ [m])] :=
  ⟨by decide, by decide,
    pathForBoilerplate_first_match unixRt (St.init sampleWorld) "go"
      ⟨"/c/gibo/Go.gitignore", by decide, by decide⟩⟩

/-! ## Listing -/

/-- The scan of `filepath.Ext` returns nothing or a suffix of its input. -/
theorem extScan_suffix (rt : Runtime) (rev acc : List Char) :
    extScan rt rev acc = [] ∨ extScan rt rev acc <:+ rev.reverse ++ acc := by
  induction rev generalizing acc with
  | nil => left; rfl
  | cons c rev ih =>
    unfold extScan
    by_cases hsep : IsPathSeparator rt c = true
    · left; simp [hsep]
    · by_cases hdot : c = '.'
      · right
        rw [if_neg hsep, if_pos hdot, List.reverse_cons, List.append_assoc,
          List.singleton_append]
        exact List.suffix_append _ _
      · rw [if_neg hsep, if_neg hdot, List.reverse_cons, List.append_assoc,
          List.singleton_append]
        exact ih (c :: acc)

/-- The scan of `filepath.Ext` on a string that ends in `.gitignore`. -/
theorem extScan_gitignore (rt : Runtime) (x : List Char) :
    extScan rt (".gitignore".data.reverse ++ x) [] = ".gitignore".data := by
  have hd : ".gitignore".data.reverse = ['e', 'r', 'o', 'n', 'g', 'i', 't', 'i', 'g', '.'] := by
    decide
  rw [hd]
  cases hg : rt.goos <;>
    simp [extScan, IsPathSeparator, PathSeparator, hg]

/-- Go `filepath.Ext` answers `.gitignore` exactly on the strings that end in
`.gitignore`. -/
theorem Ext_eq_gitignore_iff (rt : Runtime) (b : String) :
    Ext rt b = ".gitignore" ↔ HasSuffix b ".gitignore" = true := by
  unfold HasSuffix
  rw [List.isSuffixOf_iff_suffix]
  constructor
  · intro h
    have h1 : extScan rt b.data.reverse [] = ".gitignore".data := congrArg String.data h
    rcases extScan_suffix rt b.data.reverse [] with h0 | hs
    · rw [h1] at h0
      exact absurd h0 (by decide)
    · rw [h1] at hs
      simpa using hs
  · rintro ⟨x, hx⟩
    apply String.ext
    show extScan rt b.data.reverse [] = ".gitignore".data
    rw [← hx, List.reverse_append]
    exact extScan_gitignore rt x.reverse

/-- The walk of `ListBoilerplates` visits every entry, never fails, and
appends the collected names to `result`. -/
theorem WalkDir_listFn (rt : Runtime) (l : List String) (acc : List String) :
    WalkDir (ListBoilerplatesFn rt) l acc = (acc ++ collectedNames rt l, l, none) := by
  induction l generalizing acc with
  | nil => simp [WalkDir, collectedNames]
  | cons p ps ih =>
    by_cases hext : Ext rt (Base rt p) = ".gitignore"
    · have hsuf := (Ext_eq_gitignore_iff rt (Base rt p)).mp hext
      have hfn : ListBoilerplatesFn rt p acc
          = (acc ++ [TrimSuffix (Base rt p) ".gitignore"], none) := by
        simp only [ListBoilerplatesFn, hext, if_true]
      rw [WalkDir, hfn]
      simp only [ih]
      simp [collectedNames, hsuf]
    · have hsuf : ¬ HasSuffix (Base rt p) ".gitignore" = true :=
        fun h => hext ((Ext_eq_gitignore_iff rt (Base rt p)).mpr h)
      have hfn : ListBoilerplatesFn rt p acc = (acc, none) := by
        simp only [ListBoilerplatesFn, hext, if_false]
      rw [WalkDir, hfn]
      simp only [ih]
      simp [collectedNames, hsuf]

/-- The byte-wise order is total. -/
theorem bytesLE_total : ∀ a b : List Nat, bytesLE a b = true ∨ bytesLE b a = true
  | [], _ => Or.inl rfl
  | _ :: _, [] => Or.inr rfl
  | a :: as, b :: bs => by
    rcases Nat.lt_trichotomy a b with h | h | h
    · left; simp [bytesLE, h]
    · subst h
      rcases bytesLE_total as bs with h1 | h1
      · left; simp [bytesLE, h1]
      · right; simp [bytesLE, h1]
    · right; simp [bytesLE, h]

/-- The byte-wise order is transitive. -/
theorem bytesLE_trans : ∀ a b c : List Nat,
    bytesLE a b = true → bytesLE b c = true → bytesLE a c = true
  | [], _, _, _, _ => rfl
  | _ :: _, [], _, h, _ => by simp [bytesLE] at h
  | _ :: _, _ :: _, [], _, h => by simp [bytesLE] at h
  | a :: as, b :: bs, c :: cs, h1, h2 => by
    simp only [bytesLE, Bool.or_eq_true, Bool.and_eq_true, decide_eq_true_eq, beq_iff_eq]
      at h1 h2 ⊢
    rcases h1 with h1 | ⟨h1, h1r⟩
    · rcases h2 with h2 | ⟨h2, _⟩
      · left; omega
      · left; omega
    · rcases h2 with h2 | ⟨h2, h2r⟩
      · left; omega
      · right
        exact ⟨by omega, bytesLE_trans as bs cs h1r h2r⟩

instance : IsTotal String stringLE :=
  ⟨fun a b => bytesLE_total (utf8Bytes a) (utf8Bytes b)⟩

instance : IsTrans String stringLE :=
  ⟨fun a b c => bytesLE_trans (utf8Bytes a) (utf8Bytes b) (utf8Bytes c)⟩

/-- Go `sort.Strings` returns its input in increasing order. -/
theorem sortStrings_sorted (x : List String) : (sortStrings x).Sorted stringLE :=
  List.sorted_insertionSort stringLE x

/-- Go `sort.Strings` keeps every element, as often as it occurs. -/
theorem sortStrings_perm (x : List String) : (sortStrings x).Perm x :=
  List.perm_insertionSort stringLE x

/-- Every rune is below `0x110000`. -/
theorem Char_toNat_lt (c : Char) : c.toNat < 0x110000 := by
  have h := c.valid
  simp only [UInt32.isValidChar, Nat.isValidChar] at h
  show c.val.toNat < _
  omega

/-- UTF-8 is a prefix code: the encoding of a rune at the head of a byte
sequence determines the rune and the rest. -/
theorem utf8Rune_prefix_free (c d : Char) (x y : List Nat)
    (h : utf8Rune c ++ x = utf8Rune d ++ y) : c = d ∧ x = y := by
  have hc := Char_toNat_lt c
  have hd := Char_toNat_lt d
  have key : c.toNat = d.toNat ∧ x = y := by
    unfold utf8Rune at h
    simp only at h
    split_ifs at h <;>
      simp only [List.cons_append, List.nil_append, List.cons.injEq] at h <;>
      (try (exfalso; omega))
    all_goals exact ⟨by omega, by simp_all⟩
  exact ⟨Char.ext (UInt32.ext key.1), key.2⟩

/-- A Go string is determined by its bytes. -/
theorem utf8Bytes_injective : ∀ a b : List Char,
    (a.map utf8Rune).flatten = (b.map utf8Rune).flatten → a = b
  | [], [] => fun _ => rfl
  | [], d :: b => by
    intro h
    have hne : utf8Rune d ≠ [] := by
      unfold utf8Rune; simp only; split_ifs <;> simp
    simp only [List.map_nil, List.flatten_nil, List.map_cons, List.flatten_cons] at h
    exact absurd (List.append_eq_nil.mp h.symm).1 hne
  | c :: a, [] => by
    intro h
    have hne : utf8Rune c ≠ [] := by
      unfold utf8Rune; simp only; split_ifs <;> simp
    simp only [List.map_nil, List.flatten_nil, List.map_cons, List.flatten_cons] at h
    exact absurd (List.append_eq_nil.mp h).1 hne
  | c :: a, d :: b => by
    intro h
    simp only [List.map_cons, List.flatten_cons] at h
    obtain ⟨hcd, hrest⟩ := utf8Rune_prefix_free c d _ _ h
    rw [hcd, utf8Bytes_injective a b hrest]

/-- The byte-wise order is antisymmetric. -/
theorem bytesLE_antisymm : ∀ a b : List Nat,
    bytesLE a b = true → bytesLE b a = true → a = b
  | [], [], _, _ => rfl
  | [], _ :: _, _, h => by simp [bytesLE] at h
  | _ :: _, [], h, _ => by simp [bytesLE] at h
  | a :: as, b :: bs, h1, h2 => by
    simp only [bytesLE, Bool.or_eq_true, Bool.and_eq_true, decide_eq_true_eq, beq_iff_eq]
      at h1 h2
    rcases h1 with h1 | ⟨h1, h1r⟩
    · rcases h2 with h2 | ⟨h2, _⟩ <;> omega
    · rcases h2 with h2 | ⟨_, h2r⟩
      · omega
      · rw [h1, bytesLE_antisymm as bs h1r h2r]

instance : IsAntisymm String stringLE :=
  ⟨fun a b h1 h2 =>
    String.ext (utf8Bytes_injective a.data b.data
      (bytesLE_antisymm (utf8Bytes a) (utf8Bytes b) h1 h2))⟩

/-- The outcome of `sort.Strings` is the only sorted rearrangement of its
input, so it does not depend on the sorting algorithm. -/
theorem sortStrings_unique (x y : List String) (hperm : y.Perm x)
    (hsorted : y.Sorted stringLE) : y = sortStrings x :=
  List.eq_of_perm_of_sorted (hperm.trans (sortStrings_perm x).symm) hsorted
    (sortStrings_sorted x)

/-- Source `cloneIfNeeded` on a mirror path that is a directory: one `os.Stat`, no
error, nothing else. -/
theorem cloneIfNeeded_dir (rt : Runtime) (st : St) (h : st.world.stat = .ok ⟨true⟩) :
    cloneIfNeeded rt st = (.ret none, st.log (.Stat rt.RepoDir)) := by
  simp [cloneIfNeeded, osStat, h, IsNotExist]

/-- C4: when the mirror exists, `ListBoilerplates` returns without error the
byte-wise ascending sort of the list that holds, for every walked entry whose
base name ends in `.gitignore`, that base name without the suffix, one element
per entry: the result is sorted and a permutation of that list (nothing is
merged), and it is the only such list.  Entries `Go`, `python`, `C++` give
`["C++", "Go", "python"]`, and a mirror with only `Go.gitignore` and
`go.gitignore` gives `["Go", "go"]`. -/
theorem ListBoilerplates_sorted_perm (rt : Runtime) (st : St)
    (hdir : st.world.stat = .ok ⟨true⟩) :
    (∃ result, (ListBoilerplates rt st).1 = .ret (result, none) ∧
      result = sortStrings
        (((st.world.walk.map (Base rt)).filter (fun b => HasSuffix b ".gitignore")).map
          (fun b => TrimSuffix b ".gitignore")) ∧
      result.Sorted stringLE ∧
      result.Perm
        (((st.world.walk.map (Base rt)).filter (fun b => HasSuffix b ".gitignore")).map
          (fun b => TrimSuffix b ".gitignore")) ∧
      ∀ other : List String, other.Sorted stringLE →
        other.Perm
          (((st.world.walk.map (Base rt)).filter (fun b => HasSuffix b ".gitignore")).map
            (fun b => TrimSuffix b ".gitignore")) →
        other = result) ∧
    (ListBoilerplates unixRt (St.init { sampleWorld with
        walk := ["/c/gibo/Go.gitignore", "/c/gibo/python.gitignore", "/c/gibo/C++.gitignore"] })).1
      = .ret (["C++", "Go", "python"], none) ∧
    (ListBoilerplates unixRt (St.init { sampleWorld with
        walk := ["/c/gibo/go.gitignore", "/c/gibo/Go.gitignore"] })).1
      = .ret (["Go", "go"], none) := by
  refine ⟨?_, by decide, by decide⟩
  refine ⟨_, ?_, rfl, sortStrings_sorted _, sortStrings_perm _,
    fun other hs hp => sortStrings_unique _ other hp hs⟩
  unfold ListBoilerplates
  rw [cloneIfNeeded_dir rt st hdir]
  simp only [WalkDir_listFn, List.nil_append]
  rfl

/-- Witness for C4 on the sample mirror. -/
theorem ListBoilerplates_sorted_perm_witness :
    (St.init sampleWorld).world.stat = .ok ⟨true⟩ ∧
    (ListBoilerplates unixRt (St.init sampleWorld)).1
      = .ret (["C++", "Go", "Python", "go"], none) ∧
    ∃ result, (ListBoilerplates unixRt (St.init sampleWorld)).1 = .ret (result, none) ∧
      result = sortStrings
        ((((St.init sampleWorld).world.walk.map (Base unixRt)).filter
          (fun b => HasSuffix b ".gitignore")).map (fun b => TrimSuffix b ".gitignore")) ∧
      result.Sorted stringLE ∧
      result.Perm
        ((((St.init sampleWorld).world.walk.map (Base unixRt)).filter
          (fun b => HasSuffix b ".gitignore")).map (fun b => TrimSuffix b ".gitignore")) ∧
      ∀ other : List String, other.Sorted stringLE →
        other.Perm
          ((((St.init sampleWorld).world.walk.map (Base unixRt)).filter
            (fun b => HasSuffix b ".gitignore")).map (fun b => TrimSuffix b ".gitignore")) →
        other = result :=
  ⟨rfl, by decide, (ListBoilerplates_sorted_perm unixRt (St.init sampleWorld) rfl).1⟩

/-! ## Ensuring the mirror exists -/

/-- C8: `cloneIfNeeded` is an idempotent no-op on an existing mirror: when the
mirror path exists and is a directory it returns no error, calls `os.Stat`
and nothing else (neither `os.MkdirAll` nor `git.PlainClone`), leaves the
world and the output as they were, and a second call right after gives the
same result and the same world. -/
theorem cloneIfNeeded_idempotent (rt : Runtime) (st : St)
    (hdir : st.world.stat = .ok ⟨true⟩) :
    (cloneIfNeeded rt st).1 = .ret none ∧
    (cloneIfNeeded rt st).2.calls = st.calls ++ [.Stat rt.RepoDir] ∧
    (cloneIfNeeded rt st).2.world = st.world ∧
    (cloneIfNeeded rt st).2.stdout = st.stdout ∧
    (cloneIfNeeded rt (cloneIfNeeded rt st).2).1 = (cloneIfNeeded rt st).1 ∧
    (cloneIfNeeded rt (cloneIfNeeded rt st).2).2.world = (cloneIfNeeded rt st).2.world ∧
    (cloneIfNeeded rt (cloneIfNeeded rt st).2).2.stdout = (cloneIfNeeded rt st).2.stdout := by
  have h1 := cloneIfNeeded_dir rt st hdir
  have h2 := cloneIfNeeded_dir rt (st.log (.Stat rt.RepoDir)) hdir
  rw [h1, h2]
  exact ⟨rfl, rfl, rfl, rfl, rfl, rfl, rfl⟩

/-- Witness for C8 on the sample mirror. -/
theorem cloneIfNeeded_idempotent_witness :
    (St.init sampleWorld).world.stat = .ok ⟨true⟩ ∧
    (cloneIfNeeded unixRt (St.init sampleWorld)).1 = .ret none ∧
    (cloneIfNeeded unixRt (St.init sampleWorld)).2.calls = [.Stat "/c/gibo"] ∧
    (cloneIfNeeded unixRt (cloneIfNeeded unixRt (St.init sampleWorld)).2).1 = .ret none :=
  have h := cloneIfNeeded_idempotent unixRt (St.init sampleWorld) rfl
  ⟨rfl, h.1, h.2.1, h.2.2.2.2.1.trans h.1⟩

/-- On an absent mirror path `cloneIfNeeded` does create the directory and
clone into it: the no-op of C8 is particular to an existing mirror. -/
theorem cloneIfNeeded_absent (rt : Runtime) (w : World) (msg : String) (exist : Bool) :
    cloneIfNeeded rt (St.init { w with
        stat := .error (.Os msg true exist), mkdirAll := none, plainClone := none })
      = (.ret none,
          { world := { w with stat := .ok ⟨true⟩, mkdirAll := none, plainClone := none },
            calls := [.Stat rt.RepoDir, .MkdirAll rt.RepoDir, .PlainClone rt.RepoDir],
            stdout := "" }) := by
  simp [cloneIfNeeded, cloneRepo, osStat, osMkdirAll, gitPlainClone, IsNotExist, IsExist,
    St.init, St.log]

/-- C10, the run that contradicts it: when `os.Stat` fails with an error
other than "does not exist" (for example permission denied), the file info is
nil and `cloneIfNeeded` dereferences it instead of returning an error; this
holds for every such error of the `os` package.  The other half of the claim
holds: a path that exists and is not a directory gives the error
`RepoDir() ++ " exists but is not a directory"`. -/
theorem cloneIfNeeded_stat_error_nilDeref :
    (cloneIfNeeded unixRt (St.init deniedWorld)).1 = .nilDeref ∧
    (∀ (rt : Runtime) (w : World) (msg : String) (exist : Bool),
      (cloneIfNeeded rt (St.init { w with stat := .error (.Os msg false exist) })).1
        = .nilDeref) ∧
    (∀ (rt : Runtime) (w : World),
      (cloneIfNeeded rt (St.init { w with stat := .ok ⟨false⟩ })).1
        = .ret (some (.Errorf (rt.RepoDir ++ " exists but is not a directory")))) := by
  refine ⟨by decide, ?_, ?_⟩
  · intro rt w msg exist
    simp [cloneIfNeeded, osStat, IsNotExist, St.init]
  · intro rt w
    simp [cloneIfNeeded, osStat, IsNotExist, St.init]


/-! ## Printing -/

/-- Source `cloneIfNeeded` prints nothing and changes no answer of the world other
than that of `os.Stat`. -/
theorem cloneIfNeeded_frame (rt : Runtime) (st : St) :
    (cloneIfNeeded rt st).2.stdout = st.stdout ∧
    (cloneIfNeeded rt st).2.world.walk = st.world.walk ∧
    (cloneIfNeeded rt st).2.world.plainOpen = st.world.plainOpen ∧
    (cloneIfNeeded rt st).2.world.head = st.world.head ∧
    (cloneIfNeeded rt st).2.world.files = st.world.files := by
  obtain ⟨⟨stat, mk, pc, walk, po, head, wt, pull, files⟩, calls, out⟩ := st
  cases stat <;> cases mk <;> cases pc <;>
    simp only [cloneIfNeeded, cloneRepo, osStat, osMkdirAll, gitPlainClone, St.log] <;>
    split_ifs <;> simp

/-- Source `pathForBoilerplate` logs its walk and does nothing else to the state. -/
theorem pathForBoilerplate_state (rt : Runtime) (name : String) (st : St) :
    (pathForBoilerplate rt name st).2.stdout = st.stdout ∧
    (pathForBoilerplate rt name st).2.world = st.world := by
  unfold pathForBoilerplate
  simp only []
  split <;> exact ⟨rfl, rfl⟩

/-- Both `PrintBoilerplate` and `ListBoilerplates` hand an error of
`cloneIfNeeded` to their caller and stop there. -/
theorem cloneIfNeeded_error_propagated (rt : Runtime) (name : String) (st : St) (e : GoError)
    (h : (cloneIfNeeded rt st).1 = .ret (some e)) :
    PrintBoilerplate rt name st = (.ret (some e), (cloneIfNeeded rt st).2) ∧
    ListBoilerplates rt st = (.ret ([], some e), (cloneIfNeeded rt st).2) := by
  unfold PrintBoilerplate ListBoilerplates
  generalize cloneIfNeeded rt st = c at h
  obtain ⟨r, st1⟩ := c
  simp only at h
  subst h
  exact ⟨rfl, rfl⟩


/-- A run of `PrintBoilerplate` that returns nil: every step before the copy
succeeded, and the output is the two header lines, an empty line, and what
`io.Copy` transferred. -/
theorem PrintBoilerplate_ret_nil (rt : Runtime) (name : String) (st : St)
    (hrun : (PrintBoilerplate rt name st).1 = .ret none) :
    ∃ path hash f,
      (cloneIfNeeded rt st).1 = .ret none ∧
      (pathForBoilerplate rt name (cloneIfNeeded rt st).2).1 = (path, none) ∧
      st.world.plainOpen = none ∧
      st.world.head = .ok hash ∧
      st.world.files path = .ok f ∧
      (PrintBoilerplate rt name st).2.stdout
        = st.stdout ++ ("### Generated by gibo (https://github.com/simonwhitaker/gibo)" ++ "\n")
            ++ ("### " ++ ("https://raw.github.com/github/gitignore/" ++ hash)
                  ++ relativePath rt path ++ "\n\n")
            ++ f.copied := by
  obtain ⟨hout, -, hpo, hhead, hfiles⟩ := cloneIfNeeded_frame rt st
  obtain ⟨hout2, hworld2⟩ := pathForBoilerplate_state rt name (cloneIfNeeded rt st).2
  unfold PrintBoilerplate at hrun ⊢
  generalize hc : cloneIfNeeded rt st = c at *
  obtain ⟨r, st1⟩ := c
  cases r with
  | nilDeref => simp at hrun
  | ret o =>
    cases o with
    | some e => simp at hrun
    | none =>
      simp only at hrun ⊢
      generalize hp : pathForBoilerplate rt name st1 = p at *
      obtain ⟨⟨path, err⟩, st2⟩ := p
      simp only at hout hpo hhead hfiles hout2 hworld2
      cases err with
      | some e => simp at hrun
      | none =>
        have hpo2 : st2.world.plainOpen = st.world.plainOpen := by rw [hworld2, hpo]
        have hhead2 : st2.world.head = st.world.head := by rw [hworld2, hhead]
        have hfiles2 : st2.world.files = st.world.files := by rw [hworld2, hfiles]
        cases hpo1 : st.world.plainOpen with
        | some e =>
          simp [gitPlainOpen, hpo2, hpo1] at hrun
        | none =>
          cases hh : st.world.head with
          | error e =>
            simp [gitPlainOpen, gitHead, St.log, hpo2, hpo1, hhead2, hh] at hrun
          | ok hash =>
            cases hf : st.world.files path with
            | error e =>
              simp [gitPlainOpen, gitHead, osOpen, Println, St.log, St.print, hpo2, hpo1,
                hhead2, hh, hfiles2, hf] at hrun
            | ok f =>
              refine ⟨path, hash, f, trivial, rfl, rfl, rfl, hf, ?_⟩
              simp [gitPlainOpen, gitHead, osOpen, ioCopy, Println, St.log, St.print, hpo2, hpo1,
                hhead2, hh, hfiles2, hf, hout2, hout, String.append_assoc]


/-- A run of `PrintBoilerplate` that gets as far as the header: the output is
the two header lines, an empty line, and what `io.Copy` transferred if the
file could be opened. -/
theorem PrintBoilerplate_header (rt : Runtime) (name : String) (st : St) (path hash : String)
    (hc : (cloneIfNeeded rt st).1 = .ret none)
    (hp : (pathForBoilerplate rt name (cloneIfNeeded rt st).2).1 = (path, none))
    (hpo : st.world.plainOpen = none)
    (hh : st.world.head = .ok hash) :
    (PrintBoilerplate rt name st).2.stdout
      = st.stdout ++ ("### Generated by gibo (https://github.com/simonwhitaker/gibo)" ++ "\n")
          ++ ("### " ++ ("https://raw.github.com/github/gitignore/" ++ hash)
                ++ relativePath rt path ++ "\n\n")
          ++ (match st.world.files path with
              | .ok f => f.copied
              | .error _ => "") := by
  obtain ⟨hout, -, hpo0, hhead, hfiles⟩ := cloneIfNeeded_frame rt st
  obtain ⟨hout2, hworld2⟩ := pathForBoilerplate_state rt name (cloneIfNeeded rt st).2
  unfold PrintBoilerplate
  generalize hcc : cloneIfNeeded rt st = c at *
  obtain ⟨r, st1⟩ := c
  simp only at hc
  subst hc
  simp only
  generalize hpp : pathForBoilerplate rt name st1 = p at *
  obtain ⟨⟨path1, err⟩, st2⟩ := p
  simp only [Prod.mk.injEq] at hp hout hpo0 hhead hfiles hout2 hworld2
  obtain ⟨hp1, hp2⟩ := hp
  subst hp1 hp2
  have hpo2 : st2.world.plainOpen = none := by rw [hworld2, hpo0, hpo]
  have hhead2 : st2.world.head = .ok hash := by rw [hworld2, hhead, hh]
  have hfiles2 : st2.world.files = st.world.files := by rw [hworld2, hfiles]
  cases hf : st.world.files path1 with
  | error e =>
    simp [gitPlainOpen, gitHead, osOpen, Println, St.log, St.print, hpo2, hhead2, hfiles2, hf,
      hout2, hout, String.append_assoc]
  | ok f =>
    simp [gitPlainOpen, gitHead, osOpen, ioCopy, Println, St.log, St.print, hpo2, hhead2,
      hfiles2, hf, hout2, hout, String.append_assoc]

/-- Go `strings.ReplaceAll` of the backslash by the slash leaves no backslash. -/
theorem ReplaceAll_no_backslash (s : String) : '\\' ∉ (ReplaceAll s '\\' '/').data := by
  unfold ReplaceAll
  simp only [List.mem_map, not_exists, not_and]
  intro c _
  by_cases h : c = '\\'
  · rw [if_pos h]; decide
  · rw [if_neg h]; exact h

/-- Go `strings.TrimPrefix` adds no rune. -/
theorem TrimPrefix_subset (s pre : String) (c : Char) (h : c ∈ (TrimPrefix s pre).data) :
    c ∈ s.data := by
  unfold TrimPrefix at h
  split at h
  · exact List.mem_of_mem_drop h
  · exact h

/-- C5, the run that contradicts it as stated: on a Windows host the second
header line does not carry the resolved path with the mirror root removed
(`\Go.gitignore`) but that path with every backslash turned into a slash. -/
theorem PrintBoilerplate_output_windows_differs :
    (PrintBoilerplate windowsRt "go" (St.init windowsWorld)).1 = .ret none ∧
    (pathForBoilerplate windowsRt "go" (cloneIfNeeded windowsRt (St.init windowsWorld)).2).1
      = ("C:\\c\\gibo\\Go.gitignore", none) ∧
    windowsWorld.head = .ok "abc123" ∧
    windowsWorld.files "C:\\c\\gibo\\Go.gitignore" = .ok ⟨"*.exe\n", none⟩ ∧
    TrimPrefix "C:\\c\\gibo\\Go.gitignore" windowsRt.RepoDir = "\\Go.gitignore" ∧
    (PrintBoilerplate windowsRt "go" (St.init windowsWorld)).2.stdout
      = "### Generated by gibo (https://github.com/simonwhitaker/gibo)\n"
        ++ "### https://raw.github.com/github/gitignore/abc123/Go.gitignore\n"
        ++ "\n" ++ "*.exe\n" ∧
    (PrintBoilerplate windowsRt "go" (St.init windowsWorld)).2.stdout
      ≠ "### Generated by gibo (https://github.com/simonwhitaker/gibo)" ++ "\n"
        ++ ("### " ++ ("https://raw.github.com/github/gitignore/" ++ "abc123"
              ++ TrimPrefix "C:\\c\\gibo\\Go.gitignore" windowsRt.RepoDir) ++ "\n")
        ++ "\n" ++ "*.exe\n" := by
  set_option maxRecDepth 100000 in
  exact ⟨by decide, by decide, rfl, rfl, by decide, by decide, by decide⟩

/-- C5 (amended): when `PrintBoilerplate` returns nil, a path was resolved,
the head revision was read and the file was opened, and if `io.Copy` reported
no error the output is exactly: the line
`### Generated by gibo (https://github.com/simonwhitaker/gibo)`, the line
`### ` followed by `https://raw.github.com/github/gitignore/`, the hash and
the resolved path without the mirror root prefix (with every backslash turned
into a slash where the host separator is the backslash), an empty line, and
the bytes of the file unchanged. -/
theorem PrintBoilerplate_output (rt : Runtime) (name : String) (st : St)
    (hrun : (PrintBoilerplate rt name st).1 = .ret none) :
    ∃ path hash f,
      (pathForBoilerplate rt name (cloneIfNeeded rt st).2).1 = (path, none) ∧
      st.world.head = .ok hash ∧
      st.world.files path = .ok f ∧
      (f.copyFail = none →
        (PrintBoilerplate rt name st).2.stdout
          = st.stdout
            ++ ("### Generated by gibo (https://github.com/simonwhitaker/gibo)" ++ "\n")
            ++ ("### " ++ ("https://raw.github.com/github/gitignore/" ++ hash
                  ++ (if PathSeparator rt = '\\'
                      then ReplaceAll (TrimPrefix path rt.RepoDir) '\\' '/'
                      else TrimPrefix path rt.RepoDir)) ++ "\n")
            ++ "\n" ++ f.content) := by
  obtain ⟨path, hash, f, _, hp, _, hh, hf, hout⟩ := PrintBoilerplate_ret_nil rt name st hrun
  refine ⟨path, hash, f, hp, hh, hf, ?_⟩
  intro hcopy
  have hcopied : f.copied = f.content := by
    unfold FileData.copied
    rw [hcopy]
  have hnn : "\n\n" = "\n" ++ "\n" := by decide
  rw [hout, hcopied, hnn]
  simp only [relativePath, String.append_assoc]

/-- Witness for C5 (amended) on the sample mirror of the Unix host. -/
theorem PrintBoilerplate_output_witness :
    (PrintBoilerplate unixRt "python" (St.init sampleWorld)).1 = .ret none ∧
    (PrintBoilerplate unixRt "python" (St.init sampleWorld)).2.stdout
      = "### Generated by gibo (https://github.com/simonwhitaker/gibo)\n"
        ++ "### https://raw.github.com/github/gitignore/abc123/Python.gitignore\n"
        ++ "\n" ++ "*.pyc\n__pycache__/\n" ∧
    ∃ path hash f,
      (pathForBoilerplate unixRt "python" (cloneIfNeeded unixRt (St.init sampleWorld)).2).1
        = (path, none) ∧
      (St.init sampleWorld).world.head = .ok hash ∧
      (St.init sampleWorld).world.files path = .ok f ∧
      (f.copyFail = none →
        (PrintBoilerplate unixRt "python" (St.init sampleWorld)).2.stdout
          = (St.init sampleWorld).stdout
            ++ ("### Generated by gibo (https://github.com/simonwhitaker/gibo)" ++ "\n")
            ++ ("### " ++ ("https://raw.github.com/github/gitignore/" ++ hash
                  ++ (if PathSeparator unixRt = '\\'
                      then ReplaceAll (TrimPrefix path unixRt.RepoDir) '\\' '/'
                      else TrimPrefix path unixRt.RepoDir)) ++ "\n")
            ++ "\n" ++ f.content) :=
  ⟨by set_option maxRecDepth 100000 in decide, by set_option maxRecDepth 100000 in decide,
    PrintBoilerplate_output unixRt "python" (St.init sampleWorld)
      (by set_option maxRecDepth 100000 in decide)⟩


/-- C6, the run that contradicts it as stated: on a Unix host a file of the
mirror whose name holds a backslash is resolved, and the relative path in the
second header line keeps that backslash (nothing is replaced where the
separator is `/`). -/
theorem PrintBoilerplate_unix_keeps_backslash :
    PathSeparator unixRt = '/' ∧
    (PrintBoilerplate unixRt "a\\b" (St.init backslashWorld)).1 = .ret none ∧
    (pathForBoilerplate unixRt "a\\b" (cloneIfNeeded unixRt (St.init backslashWorld)).2).1
      = ("/c/gibo/a\\b.gitignore", none) ∧
    HasPrefix "/c/gibo/a\\b.gitignore" unixRt.RepoDir = true ∧
    relativePath unixRt "/c/gibo/a\\b.gitignore" = "/a\\b.gitignore" ∧
    '\\' ∈ (relativePath unixRt "/c/gibo/a\\b.gitignore").data ∧
    (PrintBoilerplate unixRt "a\\b" (St.init backslashWorld)).2.stdout
      = "### Generated by gibo (https://github.com/simonwhitaker/gibo)\n"
        ++ "### https://raw.github.com/github/gitignore/abc123/a\\b.gitignore\n"
        ++ "\n" ++ "*.tmp\n" := by
  set_option maxRecDepth 100000 in
  exact ⟨by decide, by decide, by decide, by decide, by decide, by decide, by decide⟩

/-- C6 (amended): in every run of `PrintBoilerplate` that reaches the header
(the mirror is ensured, a path is resolved, the repository opens and its head
is read), the second line is `### ` followed by
`https://raw.github.com/github/gitignore/`, the head revision hash and a
relative path `rel`.  Where the host separator is the backslash, `rel` is the
resolved path without the mirror root prefix with every backslash replaced by
a slash, rune for rune, so it holds no backslash.  Where the separator is the
slash, `rel` is the resolved path without the mirror root prefix, unchanged,
so it holds no backslash when the resolved path holds none. -/
theorem PrintBoilerplate_header_relativePath (rt : Runtime) (name : String) (st : St)
    (path hash : String)
    (hc : (cloneIfNeeded rt st).1 = .ret none)
    (hp : (pathForBoilerplate rt name (cloneIfNeeded rt st).2).1 = (path, none))
    (hpo : st.world.plainOpen = none)
    (hh : st.world.head = .ok hash) :
    ∃ rel rest,
      (PrintBoilerplate rt name st).2.stdout
        = st.stdout
          ++ ("### Generated by gibo (https://github.com/simonwhitaker/gibo)" ++ "\n")
          ++ ("### " ++ ("https://raw.github.com/github/gitignore/" ++ hash ++ rel) ++ "\n")
          ++ "\n" ++ rest ∧
      (PathSeparator rt = '\\' →
        rel = ReplaceAll (TrimPrefix path rt.RepoDir) '\\' '/' ∧
        rel.data = (TrimPrefix path rt.RepoDir).data.map (fun c => if c = '\\' then '/' else c) ∧
        rel.data.length = (TrimPrefix path rt.RepoDir).data.length ∧
        '\\' ∉ rel.data) ∧
      (PathSeparator rt = '/' →
        rel = TrimPrefix path rt.RepoDir ∧ ('\\' ∉ path.data → '\\' ∉ rel.data)) ∧
      (PathSeparator rt = '\\' ∨ PathSeparator rt = '/') := by
  refine ⟨relativePath rt path,
    (match st.world.files path with
      | .ok f => f.copied
      | .error _ => ""), ?_, ?_, ?_, ?_⟩
  · have hnn : "\n\n" = "\n" ++ "\n" := by decide
    rw [PrintBoilerplate_header rt name st path hash hc hp hpo hh, hnn]
    simp only [String.append_assoc]
  · intro hsep
    have hrel : relativePath rt path = ReplaceAll (TrimPrefix path rt.RepoDir) '\\' '/' := by
      unfold relativePath
      simp only [hsep, if_true]
    rw [hrel]
    refine ⟨rfl, rfl, ?_, ReplaceAll_no_backslash _⟩
    show ((TrimPrefix path rt.RepoDir).data.map _).length = _
    exact List.length_map _ _
  · intro hsep
    have hne : ¬ PathSeparator rt = '\\' := by rw [hsep]; decide
    have hrel : relativePath rt path = TrimPrefix path rt.RepoDir := by
      unfold relativePath
      simp only [hne, if_false]
    refine ⟨hrel, ?_⟩
    intro hpath hmem
    rw [hrel] at hmem
    exact hpath (TrimPrefix_subset _ _ _ hmem)
  · unfold PathSeparator
    cases rt.goos
    · right; rfl
    · left; rfl

/-- Witness for C6 (amended) on the Windows host: the resolved path
`C:\c\gibo\Go.gitignore` under the root `C:\c\gibo` is embedded as
`/Go.gitignore`. -/
theorem PrintBoilerplate_header_relativePath_witness :
    (cloneIfNeeded windowsRt (St.init windowsWorld)).1 = .ret none ∧
    (pathForBoilerplate windowsRt "go" (cloneIfNeeded windowsRt (St.init windowsWorld)).2).1
      = ("C:\\c\\gibo\\Go.gitignore", none) ∧
    (St.init windowsWorld).world.plainOpen = none ∧
    (St.init windowsWorld).world.head = .ok "abc123" ∧
    PathSeparator windowsRt = '\\' ∧
    ReplaceAll (TrimPrefix "C:\\c\\gibo\\Go.gitignore" windowsRt.RepoDir) '\\' '/'
      = "/Go.gitignore" ∧
    (PrintBoilerplate windowsRt "go" (St.init windowsWorld)).2.stdout
      = "### Generated by gibo (https://github.com/simonwhitaker/gibo)\n"
        ++ "### https://raw.github.com/github/gitignore/abc123/Go.gitignore\n"
        ++ "\n" ++ "*.exe\n" ∧
    ∃ rel rest,
      (PrintBoilerplate windowsRt "go" (St.init windowsWorld)).2.stdout
        = (St.init windowsWorld).stdout
          ++ ("### Generated by gibo (https://github.com/simonwhitaker/gibo)" ++ "\n")
          ++ ("### " ++ ("https://raw.github.com/github/gitignore/" ++ "abc123" ++ rel) ++ "\n")
          ++ "\n" ++ rest ∧
      (PathSeparator windowsRt = '\\' →
        rel = ReplaceAll (TrimPrefix "C:\\c\\gibo\\Go.gitignore" windowsRt.RepoDir) '\\' '/' ∧
        rel.data = (TrimPrefix "C:\\c\\gibo\\Go.gitignore" windowsRt.RepoDir).data.map
          (fun c => if c = '\\' then '/' else c) ∧
        rel.data.length
          = (TrimPrefix "C:\\c\\gibo\\Go.gitignore" windowsRt.RepoDir).data.length ∧
        '\\' ∉ rel.data) ∧
      (PathSeparator windowsRt = '/' →
        rel = TrimPrefix "C:\\c\\gibo\\Go.gitignore" windowsRt.RepoDir ∧
        ('\\' ∉ ("C:\\c\\gibo\\Go.gitignore" : String).data → '\\' ∉ rel.data)) ∧
      (PathSeparator windowsRt = '\\' ∨ PathSeparator windowsRt = '/') := by
  set_option maxRecDepth 100000 in
  exact ⟨by decide, by decide, rfl, rfl, by decide, by decide, by decide,
    PrintBoilerplate_header_relativePath windowsRt "go" (St.init windowsWorld)
      "C:\\c\\gibo\\Go.gitignore" "abc123" (by decide) (by decide) rfl rfl⟩

/-- C7, the run that contradicts it: on a first run without a network
`cloneIfNeeded` returns the error of the clone; `PrintBoilerplate` and
`ListBoilerplates` return that error and stop, but `Update` drops it, goes on
to `git.PlainOpen`, and returns the error of that call instead. -/
theorem Update_drops_cloneIfNeeded_error :
    (cloneIfNeeded unixRt (St.init offlineWorld)).1
      = .ret (some (.Other "dial tcp: lookup github.com: no such host")) ∧
    (cloneIfNeeded unixRt (St.init offlineWorld)).2.calls
      = [.Stat "/c/gibo", .MkdirAll "/c/gibo", .PlainClone "/c/gibo"] ∧
    (PrintBoilerplate unixRt "go" (St.init offlineWorld)).1
      = .ret (some (.Other "dial tcp: lookup github.com: no such host")) ∧
    (PrintBoilerplate unixRt "go" (St.init offlineWorld)).2.calls
      = [.Stat "/c/gibo", .MkdirAll "/c/gibo", .PlainClone "/c/gibo"] ∧
    (ListBoilerplates unixRt (St.init offlineWorld)).1
      = .ret ([], some (.Other "dial tcp: lookup github.com: no such host")) ∧
    (ListBoilerplates unixRt (St.init offlineWorld)).2.calls
      = [.Stat "/c/gibo", .MkdirAll "/c/gibo", .PlainClone "/c/gibo"] ∧
    (Update unixRt (St.init offlineWorld)).1
      = .ret ("", some (.Other "repository does not exist")) ∧
    (Update unixRt (St.init offlineWorld)).2.calls
      = [.Stat "/c/gibo", .MkdirAll "/c/gibo", .PlainClone "/c/gibo", .PlainOpen "/c/gibo"] := by
  set_option maxRecDepth 100000 in
  exact ⟨by decide, by decide, by decide, by decide, by decide, by decide, by decide, by decide⟩

/-- C9, the run that contradicts it: the disk fails after six bytes of
`Python.gitignore`; `io.Copy` reports the error, and `PrintBoilerplate`
returns nil with the header and only those six bytes written. -/
theorem PrintBoilerplate_drops_copy_error :
    (pathForBoilerplate unixRt "python" (cloneIfNeeded unixRt (St.init brokenReadWorld)).2).1
      = ("/c/gibo/Python.gitignore", none) ∧
    brokenReadWorld.files "/c/gibo/Python.gitignore"
      = .ok ⟨"*.pyc\n__pycache__/\n",
          some (6, .Other "read /c/gibo/Python.gitignore: input/output error")⟩ ∧
    (ioCopy "/c/gibo/Python.gitignore"
        ⟨"*.pyc\n__pycache__/\n",
          some (6, .Other "read /c/gibo/Python.gitignore: input/output error")⟩
        (St.init brokenReadWorld)).1
      = some (.Other "read /c/gibo/Python.gitignore: input/output error") ∧
    (PrintBoilerplate unixRt "python" (St.init brokenReadWorld)).1 = .ret none ∧
    (PrintBoilerplate unixRt "python" (St.init brokenReadWorld)).2.stdout
      = "### Generated by gibo (https://github.com/simonwhitaker/gibo)\n"
        ++ "### https://raw.github.com/github/gitignore/abc123/Python.gitignore\n"
        ++ "\n" ++ "*.pyc\n" := by
  set_option maxRecDepth 100000 in
  exact ⟨by decide, rfl, by decide, by decide, by decide⟩

end Gibo
